import Mathlib

set_option maxRecDepth 100000

/-!
Verification development for the TiddlyProxy authenticating reverse proxy.

The Rust sources (src/auth.rs, src/credentials.rs, src/proxy.rs,
src/service.rs, src/config.rs) are shallowly embedded below: byte strings
are `List Nat` (each element a byte value), Rust `String`/`&str` are Lean
`String`, time instants are seconds since the Unix epoch as `Nat`, and the
network side of the proxy (the upstream's answer to the forwarded request)
is passed explicitly as an `Option Response` argument (`none` models a
transport error).  External library functions used by the source
(sha2, base64, serde_json, url's form_urlencoded, the cookie crate) are
embedded as executable Lean functions following those libraries' documented
behaviour on the operations the source invokes.
-/

/-! ### Generic list and string helpers -/

/-- Index of the first occurrence of a character, as in Rust's `str::find`.
(For the strings `Token::verify` splits, the match position is used only to
split the string at that character, so a character index is an adequate
model of Rust's byte index.) -/
def findChar : List Char → Char → Option Nat
  | [], _ => none
  | c :: cs, t => if c = t then some 0 else (findChar cs t).map (· + 1)

/-- Split a list on (and dropping) every occurrence of a separator; the
result always has at least one (possibly empty) part. -/
def splitOnSep [DecidableEq α] (sep : α) : List α → List (List α)
  | [] => [[]]
  | x :: xs =>
    let rest := splitOnSep sep xs
    if x = sep then [] :: rest
    else match rest with
      | [] => [[x]]
      | r :: rs => (x :: r) :: rs

/-- Split at the first occurrence of a separator: `(before, after)`.
When the separator does not occur, `after` is empty and `found` is false. -/
def splitFirst [DecidableEq α] (sep : α) : List α → Bool × List α × List α
  | [] => (false, [], [])
  | x :: xs =>
    if x = sep then (true, [], xs)
    else
      let (found, before, after) := splitFirst sep xs
      (found, x :: before, after)

/-- First header value for a (case-sensitively matched) header name; models
`HeaderMap::get` for the canonically-cased names used by the source. -/
def headerGet (headers : List (String × String)) (name : String) : Option String :=
  (headers.find? (fun p => p.1 = name)).map (·.2)

/-! ### SHA-256 (the `sha2` crate's `Sha256`), over byte lists -/

/-- Truncation to a 32-bit word. -/
def w32 (n : Nat) : Nat := n % 4294967296

/-- Right-rotation of a 32-bit word by `k` bits (`0 < k < 32`). -/
def rotr32 (k w : Nat) : Nat := w / 2 ^ k + w % 2 ^ k * 2 ^ (32 - k)

def shaCh (x y z : Nat) : Nat := (x &&& y) ^^^ ((x ^^^ 4294967295) &&& z)

def shaMaj (x y z : Nat) : Nat := (x &&& y) ^^^ (x &&& z) ^^^ (y &&& z)

def shaS0 (x : Nat) : Nat := rotr32 2 x ^^^ rotr32 13 x ^^^ rotr32 22 x

def shaS1 (x : Nat) : Nat := rotr32 6 x ^^^ rotr32 11 x ^^^ rotr32 25 x

def shas0 (x : Nat) : Nat := rotr32 7 x ^^^ rotr32 18 x ^^^ (x >>> 3)

def shas1 (x : Nat) : Nat := rotr32 17 x ^^^ rotr32 19 x ^^^ (x >>> 10)

def shaK : List Nat :=
  [1116352408, 1899447441, 3049323471, 3921009573, 961987163, 1508970993,
   2453635748, 2870763221, 3624381080, 310598401, 607225278, 1426881987,
   1925078388, 2162078206, 2614888103, 3248222580, 3835390401, 4022224774,
   264347078, 604807628, 770255983, 1249150122, 1555081692, 1996064986,
   2554220882, 2821834349, 2952996808, 3210313671, 3336571891, 3584528711,
   113926993, 338241895, 666307205, 773529912, 1294757372, 1396182291,
   1695183700, 1986661051, 2177026350, 2456956037, 2730485921, 2820302411,
   3259730800, 3345764771, 3516065817, 3600352804, 4094571909, 275423344,
   430227734, 506948616, 659060556, 883997877, 958139571, 1322822218,
   1537002063, 1747873779, 1955562222, 2024104815, 2227730452, 2361852424,
   2428436474, 2756734187, 3204031479, 3329325298]

structure Sha256State where
  a : Nat
  b : Nat
  c : Nat
  d : Nat
  e : Nat
  f : Nat
  g : Nat
  h : Nat

def shaH0 : Sha256State :=
  ⟨1779033703, 3144134277, 1013904242, 2773480762,
   1359893119, 2600822924, 528734635, 1541459225⟩

/-- Big-endian packing of bytes into 32-bit words. -/
def bytesToWordsBE : List Nat → List Nat
  | b1 :: b2 :: b3 :: b4 :: rest =>
    (((b1 * 256 + b2) * 256 + b3) * 256 + b4) :: bytesToWordsBE rest
  | _ => []

/-- Extend a 16-word block schedule by `k` further words. -/
def shaSched (ws : List Nat) : Nat → List Nat
  | 0 => ws
  | k + 1 =>
    let n := ws.length
    shaSched (ws ++ [w32 (shas1 (ws.getD (n - 2) 0) + ws.getD (n - 7) 0 +
                          shas0 (ws.getD (n - 15) 0) + ws.getD (n - 16) 0)]) k

def shaRound (st : Sha256State) (kw : Nat × Nat) : Sha256State :=
  let t1 := w32 (st.h + shaS1 st.e + shaCh st.e st.f st.g + kw.1 + kw.2)
  let t2 := w32 (shaS0 st.a + shaMaj st.a st.b st.c)
  ⟨w32 (t1 + t2), st.a, st.b, st.c, w32 (st.d + t1), st.e, st.f, st.g⟩

def shaCompress (H : Sha256State) (block : List Nat) : Sha256State :=
  let ws := shaSched (bytesToWordsBE block) 48
  let st := (shaK.zip ws).foldl shaRound H
  ⟨w32 (H.a + st.a), w32 (H.b + st.b), w32 (H.c + st.c), w32 (H.d + st.d),
   w32 (H.e + st.e), w32 (H.f + st.f), w32 (H.g + st.g), w32 (H.h + st.h)⟩

/-- Big-endian bytes of a 64-bit length value. -/
def lenBytesBE (n : Nat) : List Nat :=
  [n / 2 ^ 56 % 256, n / 2 ^ 48 % 256, n / 2 ^ 40 % 256, n / 2 ^ 32 % 256,
   n / 2 ^ 24 % 256, n / 2 ^ 16 % 256, n / 2 ^ 8 % 256, n % 256]

def sha256pad (msg : List Nat) : List Nat :=
  let L := msg.length
  msg ++ 128 :: List.replicate ((55 + (64 - L % 64)) % 64) 0 ++ lenBytesBE (8 * L)

def chunks64Aux : Nat → List Nat → List (List Nat)
  | _, [] => []
  | 0, _ :: _ => []
  | fuel + 1, x :: xs => ((x :: xs).take 64) :: chunks64Aux fuel ((x :: xs).drop 64)

/-- Split into 64-byte blocks; the fuel bounds the number of blocks. -/
def chunks64 (l : List Nat) : List (List Nat) := chunks64Aux l.length l

def wordBytesBE (w : Nat) : List Nat :=
  [w / 2 ^ 24 % 256, w / 2 ^ 16 % 256, w / 2 ^ 8 % 256, w % 256]

/-- SHA-256 of a byte list (models `Sha256::digest` of the `sha2` crate). -/
def sha256 (msg : List Nat) : List Nat :=
  let fin := (chunks64 (sha256pad msg)).foldl shaCompress shaH0
  [fin.a, fin.b, fin.c, fin.d, fin.e, fin.f, fin.g, fin.h].flatMap wordBytesBE

/-! ### Base64 without padding (the `base64` crate, `Config::new(charset, false)`)

The source builds its codec configuration as
`base64::Config::new(base64::CharacterSet::Standard, false)`: the standard
alphabet, no padding.  The codec is embedded with the alphabet as a
parameter, mirroring the crate's `CharacterSet` choice. -/

/-- The standard base64 alphabet (`CharacterSet::Standard`). -/
def b64charStd (i : Nat) : Char :=
  if i < 26 then Char.ofNat (65 + i)
  else if i < 52 then Char.ofNat (97 + (i - 26))
  else if i < 62 then Char.ofNat (48 + (i - 52))
  else if i = 62 then '+'
  else '/'

/-- The url-safe base64 alphabet (`CharacterSet::UrlSafe`); used only to
state the spec's `B64URL_NOPAD` reading of the wire format. -/
def b64charUrl (i : Nat) : Char :=
  if i < 62 then b64charStd i
  else if i = 62 then '-'
  else '_'

/-- Inverse of the standard alphabet. -/
def b64invStd (c : Char) : Option Nat :=
  if 'A' ≤ c ∧ c ≤ 'Z' then some (c.toNat - 65)
  else if 'a' ≤ c ∧ c ≤ 'z' then some (c.toNat - 97 + 26)
  else if '0' ≤ c ∧ c ≤ '9' then some (c.toNat - 48 + 52)
  else if c = '+' then some 62
  else if c = '/' then some 63
  else none

/-- Base64 encoding without padding, over an arbitrary alphabet. -/
def b64encodeWith (alpha : Nat → Char) : List Nat → List Char
  | [] => []
  | [b] => [alpha (b / 4), alpha (b % 4 * 16)]
  | [b1, b2] => [alpha (b1 / 4), alpha (b1 % 4 * 16 + b2 / 16), alpha (b2 % 16 * 4)]
  | b1 :: b2 :: b3 :: rest =>
    alpha (b1 / 4) :: alpha (b1 % 4 * 16 + b2 / 16) ::
    alpha (b2 % 16 * 4 + b3 / 64) :: alpha (b3 % 64) :: b64encodeWith alpha rest

/-- Base64 decoding without padding.  A trailing group of one character is
an invalid length, and non-zero trailing bits are rejected, as in the
`base64` crate's strict (default) decoding. -/
def b64decodeWith (inv : Char → Option Nat) : List Char → Option (List Nat)
  | [] => some []
  | [_] => none
  | [c1, c2] => do
    let a ← inv c1
    let b ← inv c2
    if b % 16 ≠ 0 then none else some [a * 4 + b / 16]
  | [c1, c2, c3] => do
    let a ← inv c1
    let b ← inv c2
    let c ← inv c3
    if c % 4 ≠ 0 then none else some [a * 4 + b / 16, b % 16 * 16 + c / 4]
  | c1 :: c2 :: c3 :: c4 :: rest => do
    let a ← inv c1
    let b ← inv c2
    let c ← inv c3
    let d ← inv c4
    let tail ← b64decodeWith inv rest
    some ((a * 4 + b / 16) :: (b % 16 * 16 + c / 4) :: (c % 4 * 64 + d) :: tail)

/-- The encoding the source configures: standard alphabet, no padding. -/
def b64encode : List Nat → List Char := b64encodeWith b64charStd

/-- The decoding the source configures: standard alphabet, no padding. -/
def b64decode : List Char → Option (List Nat) := b64decodeWith b64invStd

/-! ### UTF-8 -/

/-- UTF-8 encoding of one scalar value (Rust `String::into_bytes` per char). -/
def utf8EncodeChar (c : Char) : List Nat :=
  let n := c.toNat
  if n < 128 then [n]
  else if n < 2048 then [192 + n / 64, 128 + n % 64]
  else if n < 65536 then [224 + n / 4096, 128 + n / 64 % 64, 128 + n % 64]
  else [240 + n / 262144, 128 + n / 4096 % 64, 128 + n / 64 % 64, 128 + n % 64]

/-- UTF-8 bytes of a string. -/
def utf8Encode (s : String) : List Nat := s.data.flatMap utf8EncodeChar

/-- Is `b` a UTF-8 continuation byte? -/
def utf8cont (b : Nat) : Bool := 128 ≤ b ∧ b < 192

/-- Decode one multi-byte UTF-8 sequence from its lead byte `b`
(`128 ≤ b`) and the remaining input: the scalar and the input after the
sequence.  Rejects stray continuation bytes, overlong encodings,
surrogates and values above U+10FFFF. -/
def utf8Multi (b : Nat) (rest : List Nat) : Option (Char × List Nat) :=
  if b < 194 then none
  else if b < 224 then
    match rest with
    | b2 :: rest2 =>
      if utf8cont b2 then some (Char.ofNat ((b - 192) * 64 + (b2 - 128)), rest2) else none
    | [] => none
  else if b < 240 then
    match rest with
    | b2 :: b3 :: rest3 =>
      if utf8cont b2 ∧ utf8cont b3 ∧ (b ≠ 224 ∨ 160 ≤ b2) ∧ (b ≠ 237 ∨ b2 < 160) then
        some (Char.ofNat ((b - 224) * 4096 + (b2 - 128) * 64 + (b3 - 128)), rest3)
      else none
    | _ => none
  else if b < 245 then
    match rest with
    | b2 :: b3 :: b4 :: rest4 =>
      if utf8cont b2 ∧ utf8cont b3 ∧ utf8cont b4 ∧
         (b ≠ 240 ∨ 144 ≤ b2) ∧ (b ≠ 244 ∨ b2 < 144) then
        some (Char.ofNat ((b - 240) * 262144 + (b2 - 128) * 4096 +
                          (b3 - 128) * 64 + (b4 - 128)), rest4)
      else none
    | _ => none
  else none

/-- Strict UTF-8 decoding loop (Rust `String::from_utf8`): rejects
whatever `utf8Multi` rejects, plus truncated sequences.  The fuel is
instantiated with the input length, which bounds the number of decoded
scalars. -/
def utf8DecodeLoop : Nat → List Nat → Option (List Char)
  | _, [] => some []
  | 0, _ :: _ => none
  | fuel + 1, b :: rest =>
    if b < 128 then (utf8DecodeLoop fuel rest).map (fun cs => Char.ofNat b :: cs)
    else
      match utf8Multi b rest with
      | some (ch, remaining) => (utf8DecodeLoop fuel remaining).map (fun cs => ch :: cs)
      | none => none

/-- Rust `String::from_utf8` over a byte list. -/
def utf8Decode (bs : List Nat) : Option String :=
  (utf8DecodeLoop bs.length bs).map String.mk

/-- Lossy UTF-8 decoding (Rust `String::from_utf8_lossy`): an invalid
sequence becomes U+FFFD and decoding resumes at the next byte.  Only
exercised on ASCII input by the claims. -/
def utf8LossyAux : Nat → List Nat → List Char
  | _, [] => []
  | 0, _ :: _ => []
  | fuel + 1, b :: rest =>
    if b < 128 then Char.ofNat b :: utf8LossyAux fuel rest
    else
      match utf8Multi b rest with
      | some (ch, remaining) => ch :: utf8LossyAux fuel remaining
      | none => Char.ofNat 65533 :: utf8LossyAux fuel rest

def utf8Lossy (bs : List Nat) : String := String.mk (utf8LossyAux bs.length bs)


/-! ### Decimal numerals and the serde_json model

`serde_json::to_string` of the `Token` struct prints
`{"expiration":<decimal>}`; `serde_json::from_str::<Token>` parses a JSON
object, requires a `u64` field `expiration`, and tolerates (while fully
parsing) unknown members. -/

def natDigitsAux : Nat → Nat → List Char
  | 0, n => [Char.ofNat (48 + n % 10)]
  | fuel + 1, n =>
    if n < 10 then [Char.ofNat (48 + n)]
    else natDigitsAux fuel (n / 10) ++ [Char.ofNat (48 + n % 10)]

/-- Decimal digits of a natural number, most significant first; the fuel
of the auxiliary recursion is spent one unit per digit. -/
def natDigits (n : Nat) : List Char := natDigitsAux n n

def isDigitChar (c : Char) : Bool := 48 ≤ c.toNat ∧ c.toNat ≤ 57

def digitVal (c : Char) : Nat := c.toNat - 48

/-- Consume a maximal run of decimal digits, accumulating their value. -/
def parseDigitsAux : List Char → Nat → Nat × List Char
  | [], acc => (acc, [])
  | c :: cs, acc =>
    if isDigitChar c then parseDigitsAux cs (acc * 10 + digitVal c)
    else (acc, c :: cs)

/-- Whitespace accepted between JSON tokens. -/
def isJsonWs (c : Char) : Bool :=
  c.toNat = 32 ∨ c.toNat = 9 ∨ c.toNat = 10 ∨ c.toNat = 13

def skipWs : List Char → List Char
  | [] => []
  | c :: cs => if isJsonWs c then skipWs cs else c :: cs

def isHexChar (c : Char) : Bool :=
  ('0' ≤ c ∧ c ≤ '9') ∨ ('a' ≤ c ∧ c ≤ 'f') ∨ ('A' ≤ c ∧ c ≤ 'F')

def hexVal (c : Char) : Nat :=
  if c ≤ '9' then c.toNat - 48
  else if c ≤ 'F' then c.toNat - 55
  else c.toNat - 87

/-- Body of a JSON string literal (after the opening quote): returns the
unescaped characters and the input past the closing quote. -/
def parseStringBody : List Char → Option (List Char × List Char)
  | [] => none
  | c :: cs =>
    if c = '"' then some ([], cs)
    else if c = '\\' then
      match cs with
      | [] => none
      | e :: cs2 =>
        if e = 'u' then
          match cs2 with
          | h1 :: h2 :: h3 :: h4 :: cs3 =>
            if isHexChar h1 ∧ isHexChar h2 ∧ isHexChar h3 ∧ isHexChar h4 then do
              let (body, rest) ← parseStringBody cs3
              some (Char.ofNat (((hexVal h1 * 16 + hexVal h2) * 16 + hexVal h3) * 16 + hexVal h4) :: body, rest)
            else none
          | _ => none
        else do
          let r ←
            if e = '"' then some '"'
            else if e = '\\' then some '\\'
            else if e = '/' then some '/'
            else if e = 'b' then some (Char.ofNat 8)
            else if e = 'f' then some (Char.ofNat 12)
            else if e = 'n' then some (Char.ofNat 10)
            else if e = 'r' then some (Char.ofNat 13)
            else if e = 't' then some (Char.ofNat 9)
            else none
          let (body, rest) ← parseStringBody cs2
          some (r :: body, rest)
    else if c.toNat < 32 then none
    else do
      let (body, rest) ← parseStringBody cs
      some (c :: body, rest)

/-- A non-negative JSON integer: `0`, or a nonzero digit followed by
digits.  Rejects a leading zero followed by digits, and a fractional or
exponent part (the `Token` field is a `u64`, for which serde_json rejects
floating-point forms). -/
def headIsDigit : List Char → Bool
  | d :: _ => isDigitChar d
  | [] => false

def parseJsonNat : List Char → Option (Nat × List Char)
  | [] => none
  | c :: cs =>
    if ¬ isDigitChar c then none
    else if c = '0' ∧ headIsDigit cs then none
    else
      let (n, rest) := parseDigitsAux (c :: cs) 0
      match rest with
      | r :: _ => if r = '.' ∨ r = 'e' ∨ r = 'E' then none else some (n, rest)
      | [] => some (n, rest)

mutual

/-- Skip one JSON value of any shape (used for members other than
`expiration`, which serde parses and ignores).  Fuelled recursion; the
fuel is instantiated with the input length, which bounds the recursion
depth. -/
def skipJsonValue (fuel : Nat) : List Char → Option (List Char)
  | [] => none
  | c :: cs =>
    match fuel with
    | 0 => none
    | fuel + 1 =>
      if c = '"' then (parseStringBody cs).map (·.2)
      else if c = 't' then
        match cs with
        | 'r' :: 'u' :: 'e' :: rest => some rest
        | _ => none
      else if c = 'f' then
        match cs with
        | 'a' :: 'l' :: 's' :: 'e' :: rest => some rest
        | _ => none
      else if c = 'n' then
        match cs with
        | 'u' :: 'l' :: 'l' :: rest => some rest
        | _ => none
      else if c = '-' ∨ isDigitChar c then
        match (if c = '-' then cs else c :: cs) with
        | [] => none
        | d :: ds =>
          if ¬ isDigitChar d then none
          else
            let (_, rest) := parseDigitsAux (d :: ds) 0
            let rest := match rest with
              | '.' :: r :: rs => if isDigitChar r then (parseDigitsAux (r :: rs) 0).2 else '.' :: r :: rs
              | other => other
            let rest := match rest with
              | e :: rs =>
                if e = 'e' ∨ e = 'E' then
                  match rs with
                  | s :: ss =>
                    if s = '+' ∨ s = '-' then
                      match ss with
                      | d2 :: ds2 => if isDigitChar d2 then (parseDigitsAux (d2 :: ds2) 0).2 else e :: rs
                      | [] => e :: rs
                    else if isDigitChar s then (parseDigitsAux (s :: ss) 0).2
                    else e :: rs
                  | [] => e :: rs
                else e :: rs
              | [] => []
            some rest
      else if c = '[' then
        let rest := skipWs cs
        match rest with
        | ']' :: r => some r
        | _ => skipJsonArrayItems fuel rest
      else if c = Char.ofNat 123 then
        let rest := skipWs cs
        match rest with
        | r :: rs => if r = Char.ofNat 125 then some rs else skipJsonMembers fuel (r :: rs)
        | [] => none
      else none

/-- Items of a JSON array after the opening bracket (at least one). -/
def skipJsonArrayItems (fuel : Nat) (input : List Char) : Option (List Char) :=
  match fuel with
  | 0 => none
  | fuel + 1 => do
    let rest ← skipJsonValue fuel input
    match skipWs rest with
    | ',' :: r => skipJsonArrayItems fuel (skipWs r)
    | ']' :: r => some r
    | _ => none

/-- Members of a JSON object after the opening brace (at least one). -/
def skipJsonMembers (fuel : Nat) (input : List Char) : Option (List Char) :=
  match fuel with
  | 0 => none
  | fuel + 1 =>
    match input with
    | '"' :: cs => do
      let (_, rest) ← parseStringBody cs
      match skipWs rest with
      | ':' :: r => do
        let rest2 ← skipJsonValue fuel (skipWs r)
        match skipWs rest2 with
        | ',' :: r2 => skipJsonMembers fuel (skipWs r2)
        | r2 :: rs2 => if r2 = Char.ofNat 125 then some rs2 else none
        | [] => none
      | _ => none
    | _ => none
end

/-- Scan the members of the JSON object holding a `Token`, after the
opening brace and leading whitespace (serde_json: the field `expiration`
is a `u64`, a duplicate of it is an error, unknown members are parsed and
ignored).  The Bool selects between the two loop states: `false` expects
a member, `true` expects a comma or the closing brace after one.  Returns
the accumulated `expiration` value and the input past the closing brace;
the fuel is spent at least one unit per member. -/
def tokenLoop : Nat → Bool → Option Nat → List Char → Option (Option Nat × List Char)
  | 0, _, _, _ => none
  | fuel + 1, true, acc, input =>
    match skipWs input with
    | c :: r =>
      if c = ',' then tokenLoop fuel false acc (skipWs r)
      else if c = Char.ofNat 125 then some (acc, r)
      else none
    | [] => none
  | fuel + 1, false, acc, input =>
    match input with
    | '"' :: cs => do
      let (key, rest) ← parseStringBody cs
      match skipWs rest with
      | c :: r =>
        if c = ':' then
          if key = "expiration".data then
            match acc with
            | some _ => none
            | none => do
              let (n, rest2) ← parseJsonNat (skipWs r)
              if n < 18446744073709551616 then tokenLoop fuel true (some n) rest2
              else none
          else do
            let rest2 ← skipJsonValue fuel (skipWs r)
            tokenLoop fuel true acc rest2
        else none
      | [] => none
    | _ => none

/-- The `Token` struct of src/auth.rs: a payload with the single field
`expiration` (a `u64`, embedded as `Nat`; theorems carry the `< 2^64`
bound where it matters). -/
structure Token where
  expiration : Nat
deriving DecidableEq

/-- `serde_json::to_string` of a `Token`: the characters of
`{"expiration":<decimal>}`. -/
def tokenJsonChars (n : Nat) : List Char :=
  "\x7b\"expiration\":".data ++ natDigits n ++ [Char.ofNat 125]

/-- `serde_json::to_string(&token)` (src/auth.rs line 40). -/
def tokenToJson (t : Token) : String := String.mk (tokenJsonChars t.expiration)

/-- `serde_json::from_str::<Token>` (src/auth.rs line 76): parse a JSON
object, require the `u64` member `expiration`, tolerate unknown members,
reject trailing input. -/
def tokenFromStr (s : String) : Option Token :=
  match skipWs s.data with
  | c :: rest =>
    if c = Char.ofNat 123 then
      match skipWs rest with
      | [] => none
      | r :: rs =>
        if r = Char.ofNat 125 then none
        else do
          let (acc, after) ← tokenLoop ((r :: rs).length + 1) false none (r :: rs)
          match acc with
          | some n => if skipWs after = [] then some ⟨n⟩ else none
          | none => none
    else none
  | [] => none

/-! ### src/auth.rs: token signing, minting and verification -/

/-- The `AuthConfig` capability is its 32-byte secret; the embedding passes
the secret (a byte list) directly. -/
def sign_token (bytes : List Nat) (secret : List Nat) : List Nat :=
  sha256 (bytes ++ 46 :: secret)

inductive VerificationError where
  | FormatError
  | SignatureError
  | ExpirationError
deriving DecidableEq

/-- `Token::generate` (src/auth.rs lines 39-50): serialise the payload to
JSON, sign it, and join the two base64 (standard alphabet, no padding)
segments with a period. -/
def Token.generate (t : Token) (secret : List Nat) : String :=
  let json := utf8Encode (tokenToJson t)
  let signature := sign_token json secret
  String.mk (b64encode json ++ '.' :: b64encode signature)

/-- `Token::verify` (src/auth.rs lines 52-86). -/
def Token.verify (value : String) (secret : List Nat) (time : Nat) : Except VerificationError Unit :=
  let cs := value.data
  match findChar cs '.' with
  | none => .error .FormatError
  | some pos =>
    match b64decode (cs.take pos) with
    | none => .error .FormatError
    | some token =>
      match b64decode (cs.drop (pos + 1)) with
      | none => .error .FormatError
      | some signature =>
        if signature ≠ sign_token token secret then .error .SignatureError
        else
          match utf8Decode token with
          | none => .error .FormatError
          | some token_json =>
            match tokenFromStr token_json with
            | none => .error .FormatError
            | some value => if value.expiration > time then .ok () else .error .ExpirationError

deriving instance DecidableEq for Except

/-! ### src/credentials.rs: the credential store -/

structure UserCredentials where
  salt : String
  password_hash : List Nat
deriving DecidableEq

/-- `generate_hash` (src/credentials.rs lines 20-26): SHA-256 of
`salt || ":" || password`. -/
def generate_hash (salt : String) (password : String) : List Nat :=
  sha256 (utf8Encode salt ++ 58 :: utf8Encode password)

/-! ### src/config.rs: the config adapter (the fields the dispatcher reads) -/

/-- A local request URI as seen by the proxy (hyper's `Uri::path` is `/`
when empty, so `path` is nonempty and starts with `/` for requests). -/
structure Uri where
  path : String
  query : Option String
deriving DecidableEq

/-- The upstream base URI held by the config. -/
structure RemoteUri where
  scheme : Option String
  authority : String
  path : String
deriving DecidableEq

/-- The URI built by `transfer_parts` for the outbound request. -/
structure UriFull where
  scheme : String
  authority : String
  path_and_query : String
deriving DecidableEq

structure ProxyConfig where
  remote_uri : RemoteUri
  secret : List Nat
  users : List (Option String × UserCredentials)
deriving DecidableEq

/-- `CredentialsStore::credentials_for` as implemented by `ProxyConfig`
(src/config.rs lines 92-96); the `HashMap` is embedded as an association
list with distinct keys. -/
def ProxyConfig.credentials_for (config : ProxyConfig) (name : Option String) : Option UserCredentials :=
  (config.users.find? (fun p => p.1 = name)).map (·.2)

/-- `CredentialsStore::can_login` (src/credentials.rs lines 31-39). -/
def ProxyConfig.can_login (config : ProxyConfig) (name : Option String) (password : String) : Bool :=
  match config.credentials_for name with
  | none => false
  | some credentials => credentials.password_hash = generate_hash credentials.salt password

/-- `CredentialsStore::requires_username` (src/credentials.rs lines 41-43). -/
def ProxyConfig.requires_username (config : ProxyConfig) : Bool :=
  (config.credentials_for none).isNone

/-! ### src/proxy.rs: URI rewriting and upstream forwarding -/

def strEndsWith (s : String) (c : Char) : Bool := s.data.getLast? = some c

def strDropFirst (s : String) : String := String.mk (s.data.drop 1)

/-- `transfer_parts` (src/proxy.rs lines 5-28). -/
def transfer_parts (local_uri : Uri) (remote_uri : RemoteUri) : UriFull :=
  let paq := remote_uri.path
  let paq :=
    if local_uri.path ≠ "/" then
      if strEndsWith paq '/' then paq ++ strDropFirst local_uri.path
      else paq ++ local_uri.path
    else paq
  let paq :=
    match local_uri.query with
    | some query => paq ++ "?" ++ query
    | none => paq
  { scheme := remote_uri.scheme.getD "http",
    authority := remote_uri.authority,
    path_and_query := paq }

/-- The path-and-query string of a local URI (hyper's
`Uri::path_and_query`). -/
def Uri.pathAndQuery (u : Uri) : String :=
  u.path ++ (match u.query with | some q => "?" ++ q | none => "")

inductive Body where
  | empty
  | bytes (data : List Nat)
  | loginPage (wrong_credentials : Bool)
  | stylesCss
deriving DecidableEq

structure Request where
  method : String
  uri : Uri
  headers : List (String × String)
  body : List Nat
deriving DecidableEq

structure Response where
  status : Nat
  headers : List (String × String)
  body : Body
deriving DecidableEq

/-- The outbound request `run_proxy` builds for the upstream. -/
structure OutRequest where
  uri : UriFull
  method : String
  headers : List (String × String)
  body : List Nat
deriving DecidableEq

/-- `run_proxy` (src/proxy.rs lines 31-43): build the outbound request
(rewritten URI, same method and body, the `X-Auth-Username` header exactly
when `username` is non-empty) and return the upstream's response verbatim,
or a synthetic empty 502 on transport error.  The upstream's answer to the
outbound request is passed as the `upstream` argument (`none` = transport
error); the outbound request itself is returned for the theorems about
what was sent. -/
def run_proxy (req : Request) (remote_uri : RemoteUri) (username : String)
    (upstream : Option Response) : OutRequest × Response :=
  let out : OutRequest :=
    { uri := transfer_parts req.uri remote_uri,
      method := req.method,
      headers := if username ≠ "" then [("X-Auth-Username", username)] else [],
      body := req.body }
  (out,
   match upstream with
   | some response => response
   | none => { status := 502, headers := [], body := .empty })

/-! ### src/service.rs: the dispatcher -/

def isTrimWs (c : Char) : Bool := c = ' ' ∨ c = Char.ofNat 9

def trimChars (cs : List Char) : List Char :=
  ((cs.dropWhile isTrimWs).reverse.dropWhile isTrimWs).reverse

/-- `Cookie::parse` of the cookie crate, applied to one `name=value`
chunk: name and value are split at the first `=` and trimmed; a missing
`=` or an empty name is a parse error. -/
def cookieParse (chunk : List Char) : Option (String × String) :=
  let (found, before, after) := splitFirst '=' chunk
  if found then
    let name := trimChars before
    if name = [] then none
    else some (String.mk name, String.mk (trimChars after))
  else none

/-- `is_authenitcated` (src/service.rs lines 17-38, spelling as in the
source): the first well-formed `proxy_auth` cookie of the `Cookie` header
must hold a token that verifies at the current time. -/
def is_authenitcated (request : Request) (config : ProxyConfig) (now : Nat) : Bool :=
  match headerGet request.headers "Cookie" with
  | some cookies =>
    let auth_cookie :=
      ((splitOnSep ';' cookies.data).filterMap cookieParse).find? (fun c => c.1 = "proxy_auth")
    match auth_cookie with
    | some c =>
      match Token.verify c.2 config.secret now with
      | .ok _ => true
      | .error _ => false
    | none => false
  | none => false

def isHexByte (b : Nat) : Bool :=
  (48 ≤ b ∧ b ≤ 57) ∨ (97 ≤ b ∧ b ≤ 102) ∨ (65 ≤ b ∧ b ≤ 70)

def hexByteVal (b : Nat) : Nat :=
  if b ≤ 57 then b - 48 else if b ≤ 70 then b - 55 else b - 87

/-- Percent- and plus-decoding of one urlencoded form chunk (the url
crate's `form_urlencoded`): `+` is a space, `%XY` a byte, an invalid
escape is kept as-is. -/
def percentPlusDecode : List Nat → List Nat
  | [] => []
  | 37 :: h1 :: h2 :: rest =>
    if isHexByte h1 ∧ isHexByte h2 then
      (hexByteVal h1 * 16 + hexByteVal h2) :: percentPlusDecode rest
    else 37 :: percentPlusDecode (h1 :: h2 :: rest)
  | 43 :: rest => 32 :: percentPlusDecode rest
  | b :: rest => b :: percentPlusDecode rest

/-- `url::form_urlencoded::parse(body).into_owned()`: split the body on
`&`, skip empty chunks, split each chunk at the first `=` (a chunk with no
`=` has an empty value), decode key and value lossily. -/
def formParse (body : List Nat) : List (String × String) :=
  (splitOnSep 38 body).filterMap (fun seg =>
    if seg = [] then none
    else
      let (_, k, v) := splitFirst 61 seg
      some (utf8Lossy (percentPlusDecode k), utf8Lossy (percentPlusDecode v)))

/-- The scanning loop of `extract_form_fields` (src/service.rs lines
92-101): unknown keys `continue` (skipping the break check); after a
`username`/`password` hit the loop breaks once both fields are present. -/
def extractLoop : List (String × String) → Option String → Option String → Option String × Option String
  | [], username, password => (username, password)
  | (key, value) :: rest, username, password =>
    if key = "username" then
      let username := some value
      if username ≠ none ∧ password ≠ none then (username, password)
      else extractLoop rest username password
    else if key = "password" then
      let password := some value
      if username ≠ none ∧ password ≠ none then (username, password)
      else extractLoop rest username password
    else extractLoop rest username password

/-- `extract_form_fields` (src/service.rs lines 88-103). -/
def extract_form_fields (body : List Nat) : Option String × Option String :=
  extractLoop (formParse body) none none

def natStr (n : Nat) : String := String.mk (natDigits n)

def pad2 (n : Nat) : String := if n < 10 then "0" ++ natStr n else natStr n

def weekdayNames : List String := ["Thu", "Fri", "Sat", "Sun", "Mon", "Tue", "Wed"]

def monthNames : List String :=
  ["Jan", "Feb", "Mar", "Apr", "May", "Jun", "Jul", "Aug", "Sep", "Oct", "Nov", "Dec"]

/-- RFC-1123 GMT rendering of an epoch-seconds instant, as the `time`
crate formats cookie expirations (civil-from-days conversion). -/
def httpDate (secs : Nat) : String :=
  let days := secs / 86400
  let secOfDay := secs % 86400
  let z := days + 719468
  let era := z / 146097
  let doe := z % 146097
  let yoe := (doe - doe / 1460 + doe / 36524 - doe / 146096) / 365
  let doy := doe - (365 * yoe + yoe / 4 - yoe / 100)
  let mp := (5 * doy + 2) / 153
  let d := doy - (153 * mp + 2) / 5 + 1
  let m := if mp < 10 then mp + 3 else mp - 9
  let y := yoe + era * 400 + (if m ≤ 2 then 1 else 0)
  weekdayNames.getD (days % 7) "" ++ ", " ++ pad2 d ++ " " ++
    monthNames.getD (m - 1) "" ++ " " ++ natStr y ++ " " ++
    pad2 (secOfDay / 3600) ++ ":" ++ pad2 (secOfDay % 3600 / 60) ++ ":" ++
    pad2 (secOfDay % 60) ++ " GMT"

/-- Serialisation of the cookies the source builds
(`Cookie::build(name, value).path("/").http_only(true).expires(t)`), in
the attribute order the cookie crate renders (pinned by the repository's
own logout test). -/
def cookieToString (name value : String) (expires : Nat) : String :=
  name ++ "=" ++ value ++ "; HttpOnly; Path=/; Expires=" ++ httpDate expires

/-- The 200 `text/html` login page response; the rendered template is
opaque apart from its `wrong_credentials` flag. -/
def loginPageResponse (wrong_credentials : Bool) : Response :=
  { status := 200, headers := [("Content-Type", "text/html")], body := .loginPage wrong_credentials }

/-- `run_login_page` (src/service.rs lines 116-166).  `now` is the
current time in epoch seconds. -/
def run_login_page (request : Request) (config : ProxyConfig) (now : Nat) : Response :=
  if request.method = "POST" then
    match extract_form_fields request.body with
    | (none, none) => loginPageResponse false
    | (_, none) => loginPageResponse true
    | (username, some password) =>
      if config.can_login username password then
        let expires := now + 24 * 60 * 60
        let token := Token.generate ⟨expires⟩ config.secret
        { status := 303,
          headers := [("Location", "/"), ("Set-Cookie", cookieToString "proxy_auth" token expires)],
          body := .empty }
      else loginPageResponse true
  else loginPageResponse false

/-- `handle` (src/service.rs lines 41-80).  Besides the response, the
second component is the request sent upstream when the proxy branch runs
(`none` otherwise): the upstream is contacted exactly when it is `some`.
At line 59 the source invokes `run_proxy(request, config.remote_uri())`
with no username argument (this revision of src/service.rs predates the
`username` parameter of src/proxy.rs's `run_proxy`): the dispatcher
supplies no identity, embedded as the empty username, so no
`X-Auth-Username` header is attached. -/
def handle (request : Request) (config : ProxyConfig) (now : Nat)
    (upstream : Option Response) : Response × Option OutRequest :=
  if is_authenitcated request config now then
    let path := request.uri.path
    if path = "/logout" ∨ path = "/logout/" then
      ({ status := 303,
         headers := [("Location", "/"), ("Set-Cookie", cookieToString "proxy_auth" "" 0)],
         body := .empty }, none)
    else
      let (out, response) := run_proxy request config.remote_uri "" upstream
      (response, some out)
  else
    if request.uri.path = "/" then (run_login_page request config now, none)
    else if request.uri.path = "/proxy:styles.css" then
      ({ status := 200, headers := [("Content-Type", "text/css")], body := .stylesCss }, none)
    else
      ({ status := 303, headers := [("Location", "/")], body := .empty }, none)

/-! ### Spec-side wire-format definitions and concrete inputs -/

/-- Modelled from the spec: §3's wire token — the concatenation
`B64(payload_json) "." B64(signature)` with
`signature = SHA-256(payload_json || 0x2E || secret)` — with base64 read
per the §3 prose "the standard alphabet with no padding". -/
def wireTokenStd (t : Token) (secret : List Nat) : String :=
  let payload_json := utf8Encode (tokenToJson t)
  let signature := sha256 (payload_json ++ 46 :: secret)
  String.mk (b64encodeWith b64charStd payload_json ++ '.' :: b64encodeWith b64charStd signature)

/-- Modelled from the spec: the same wire token, but with the
`B64URL_NOPAD` reading of the claim (url-safe alphabet, no padding). -/
def wireTokenUrl (t : Token) (secret : List Nat) : String :=
  let payload_json := utf8Encode (tokenToJson t)
  let signature := sha256 (payload_json ++ 46 :: secret)
  String.mk (b64encodeWith b64charUrl payload_json ++ '.' :: b64encodeWith b64charUrl signature)

/-- The characters of a path-and-query before the first `?`. -/
def takeUntilQuery : List Char → List Char
  | [] => []
  | c :: cs => if c = '?' then [] else c :: takeUntilQuery cs

/-- The path component of a path-and-query string (hyper's `Uri::path`). -/
def pathOf (paq : String) : String :=
  String.mk (takeUntilQuery paq.data)

/-- The secret of the repository's signing fixtures: the 32 ASCII bytes
of `"01234567890123456789012345678901"`. -/
def fixtureSecret : List Nat := "01234567890123456789012345678901".data.map Char.toNat

/-- A concrete 32-byte secret for witnesses and counterexamples. -/
def demoSecret : List Nat := List.replicate 32 0

/-- A concrete single-user configuration (user `user`, salt `ABCDEF`,
password `password`). -/
def demoConfig : ProxyConfig :=
  { remote_uri := { scheme := some "http", authority := "localhost:7000", path := "/" },
    secret := demoSecret,
    users := [(some "user", { salt := "ABCDEF", password_hash := generate_hash "ABCDEF" "password" })] }

/-- A token of `demoConfig` expiring at epoch second 100. -/
def demoToken : String := Token.generate ⟨100⟩ demoSecret

/-- An authenticated GET request (valid `proxy_auth` cookie) for a path. -/
def authReq (path : String) : Request :=
  { method := "GET", uri := { path := path, query := none },
    headers := [("Cookie", "proxy_auth=" ++ demoToken)], body := [] }

/-- An upstream response that itself sets a cookie. -/
def demoUpstream : Response :=
  { status := 200, headers := [("Set-Cookie", "a=b")], body := .empty }

/-- An unauthenticated POST to `/` whose body has no form fields at all. -/
def c2req : Request :=
  { method := "POST", uri := { path := "/", query := none }, headers := [], body := [] }

/-- An unauthenticated POST to `/` with a username field and no password. -/
def c2reqUser : Request :=
  { method := "POST", uri := { path := "/", query := none }, headers := [],
    body := "username=a".data.map Char.toNat }

/-- A wire string whose two halves decode but whose payload bytes are not
UTF-8 (payload `[255]`), correctly signed with `demoSecret`. -/
def c4wireNonUtf8 : String :=
  String.mk (b64encode [255] ++ '.' :: b64encode (sign_token [255] demoSecret))

/-- A correctly signed wire string whose payload decodes to the non-JSON
text `not-json`. -/
def c4wireNonJson : String :=
  String.mk (b64encode ("not-json".data.map Char.toNat) ++
             '.' :: b64encode (sign_token ("not-json".data.map Char.toNat) demoSecret))

/-- A cookie-less request with a given method and path. -/
def noCookieReq (method path : String) : Request :=
  { method := method, uri := { path := path, query := none }, headers := [], body := [] }

/-!
## Theorems

First the library lemmas about the embedded codecs, then one theorem per
claim (with witnesses and counterexamples).
-/

theorem b64invStd_charStd : ∀ i, i < 64 → b64invStd (b64charStd i) = some i := by decide

theorem b64charStd_ne_dot : ∀ i, i < 64 → b64charStd i ≠ '.' := by decide

theorem b64decodeWith_encodeWith :
    ∀ bs : List Nat, (∀ b ∈ bs, b < 256) →
      b64decodeWith b64invStd (b64encodeWith b64charStd bs) = some bs
  | [], _ => rfl
  | [b], h => by
    have hb : b < 256 := h b (by simp)
    have h1 := b64invStd_charStd (b / 4) (by omega)
    have h2 := b64invStd_charStd (b % 4 * 16) (by omega)
    simp [b64encodeWith, b64decodeWith, h1, h2, Nat.mul_mod_left]
    omega
  | [b1, b2], h => by
    have hb1 : b1 < 256 := h b1 (by simp)
    have hb2 : b2 < 256 := h b2 (by simp)
    have h1 := b64invStd_charStd (b1 / 4) (by omega)
    have h2 := b64invStd_charStd (b1 % 4 * 16 + b2 / 16) (by omega)
    have h3 := b64invStd_charStd (b2 % 16 * 4) (by omega)
    simp [b64encodeWith, b64decodeWith, h1, h2, h3, Nat.mul_mod_left]
    constructor <;> omega
  | b1 :: b2 :: b3 :: rest, h => by
    have hb1 : b1 < 256 := h b1 (by simp)
    have hb2 : b2 < 256 := h b2 (by simp)
    have hb3 : b3 < 256 := h b3 (by simp)
    have ih := b64decodeWith_encodeWith rest (fun b hb => h b (by simp [hb]))
    have h1 := b64invStd_charStd (b1 / 4) (by omega)
    have h2 := b64invStd_charStd (b1 % 4 * 16 + b2 / 16) (by omega)
    have h3 := b64invStd_charStd (b2 % 16 * 4 + b3 / 64) (by omega)
    have h4 := b64invStd_charStd (b3 % 64) (by omega)
    simp [b64encodeWith, b64decodeWith, h1, h2, h3, h4, ih]
    refine ⟨?_, ?_, ?_⟩ <;> omega

theorem b64decode_encode (bs : List Nat) (h : ∀ b ∈ bs, b < 256) :
    b64decode (b64encode bs) = some bs :=
  b64decodeWith_encodeWith bs h

theorem b64encode_ne_dot :
    ∀ bs : List Nat, (∀ b ∈ bs, b < 256) → '.' ∉ b64encodeWith b64charStd bs
  | [], _ => by simp [b64encodeWith]
  | [b], h => by
    have hb : b < 256 := h b (by simp)
    simp [b64encodeWith]
    exact ⟨(b64charStd_ne_dot _ (by omega)).symm, (b64charStd_ne_dot _ (by omega)).symm⟩
  | [b1, b2], h => by
    have hb1 : b1 < 256 := h b1 (by simp)
    have hb2 : b2 < 256 := h b2 (by simp)
    simp [b64encodeWith]
    exact ⟨(b64charStd_ne_dot _ (by omega)).symm, (b64charStd_ne_dot _ (by omega)).symm,
           (b64charStd_ne_dot _ (by omega)).symm⟩
  | b1 :: b2 :: b3 :: rest, h => by
    have hb1 : b1 < 256 := h b1 (by simp)
    have hb2 : b2 < 256 := h b2 (by simp)
    have hb3 : b3 < 256 := h b3 (by simp)
    have ih := b64encode_ne_dot rest (fun b hb => h b (by simp [hb]))
    simp [b64encodeWith]
    refine ⟨(b64charStd_ne_dot _ (by omega)).symm, (b64charStd_ne_dot _ (by omega)).symm,
            (b64charStd_ne_dot _ (by omega)).symm, (b64charStd_ne_dot _ (by omega)).symm, ?_⟩
    exact ih

theorem findChar_append_dot :
    ∀ xs ys : List Char, '.' ∉ xs → findChar (xs ++ '.' :: ys) '.' = some xs.length
  | [], ys, _ => by simp [findChar]
  | x :: xs, ys, h => by
    have hx : ¬(x = '.') := fun e => h (by simp [e])
    have ih := findChar_append_dot xs ys (fun m => h (by simp [m]))
    simp [findChar, hx, ih]

theorem sha256_bytes_bound (msg : List Nat) : ∀ b ∈ sha256 msg, b < 256 := by
  intro b hb
  simp only [sha256, wordBytesBE, List.mem_flatMap] at hb
  obtain ⟨w, _, hw⟩ := hb
  simp only [List.mem_cons, List.not_mem_nil, or_false] at hw
  rcases hw with h | h | h | h <;> subst h <;> exact Nat.mod_lt _ (by norm_num)

theorem sha256_length (msg : List Nat) : (sha256 msg).length = 32 := by
  simp [sha256, wordBytesBE]


theorem utf8EncodeChar_ascii (c : Char) (h : c.toNat < 128) :
    utf8EncodeChar c = [c.toNat] := by
  simp [utf8EncodeChar, h]

theorem utf8Encode_ascii_flat :
    ∀ cs : List Char, (∀ c ∈ cs, c.toNat < 128) →
      cs.flatMap utf8EncodeChar = cs.map Char.toNat
  | [], _ => rfl
  | c :: cs, h => by
    have hc : c.toNat < 128 := h c (by simp)
    have ih := utf8Encode_ascii_flat cs (fun d hd => h d (by simp [hd]))
    simp [utf8EncodeChar_ascii c hc, ih]

theorem utf8DecodeLoop_ascii :
    ∀ (cs : List Char) (f : Nat), (∀ c ∈ cs, c.toNat < 128) →
      utf8DecodeLoop (cs.length + f) (cs.map Char.toNat) = some cs
  | [], f, _ => by simp [utf8DecodeLoop]
  | c :: cs, f, h => by
    have hc : c.toNat < 128 := h c (by simp)
    have ih := utf8DecodeLoop_ascii cs f (fun d hd => h d (by simp [hd]))
    have hlen : (c :: cs).length + f = (cs.length + f) + 1 := by simp; omega
    rw [hlen]
    simp only [List.map_cons, utf8DecodeLoop, hc, if_true, ite_true, ih]
    simp [Char.ofNat_toNat]

theorem utf8Decode_encode_ascii (s : String) (h : ∀ c ∈ s.data, c.toNat < 128) :
    utf8Decode (utf8Encode s) = some s := by
  have hflat := utf8Encode_ascii_flat s.data h
  have := utf8DecodeLoop_ascii s.data 0 h
  simp only [Nat.add_zero] at this
  have hlen : (List.map Char.toNat s.data).length = s.data.length := by simp
  simp only [utf8Decode, utf8Encode, hflat]
  rw [hlen, this]
  cases s
  rfl

theorem char_toNat_lt (c : Char) : c.toNat < 1114112 := by
  have e : c.toNat = c.val.toNat := rfl
  rcases c.valid with h | h <;> omega

theorem utf8Encode_bytes_bound (s : String) : ∀ b ∈ utf8Encode s, b < 256 := by
  intro b hb
  simp only [utf8Encode, List.mem_flatMap] at hb
  obtain ⟨c, _, hc⟩ := hb
  have hval := char_toNat_lt c
  simp only [utf8EncodeChar] at hc
  split at hc <;> [skip; split at hc] <;> [skip; skip; split at hc] <;>
    simp at hc <;> omega

theorem toNat_ofNat_digit (d : Nat) (h : d < 10) :
    (Char.ofNat (48 + d)).toNat = 48 + d := by
  interval_cases d <;> rfl

theorem natDigitsAux_irrel :
    ∀ f1 n f2, n ≤ f1 → n ≤ f2 → natDigitsAux f1 n = natDigitsAux f2 n := by
  intro f1
  induction f1 with
  | zero =>
    intro n f2 h1 _
    have hn : n = 0 := by omega
    subst hn
    cases f2 with
    | zero => rfl
    | succ g => simp [natDigitsAux]
  | succ g ihf =>
    intro n f2 h1 h2
    cases f2 with
    | zero =>
      have hn : n = 0 := by omega
      subst hn
      simp [natDigitsAux]
    | succ h =>
      by_cases hn : n < 10
      · simp [natDigitsAux, hn]
      · simp only [natDigitsAux, hn, if_false, ite_false]
        rw [ihf (n / 10) h (by omega) (by omega)]

theorem natDigits_eq (n : Nat) :
    natDigits n = if n < 10 then [Char.ofNat (48 + n)]
      else natDigits (n / 10) ++ [Char.ofNat (48 + n % 10)] := by
  show natDigitsAux n n = _
  by_cases hn : n < 10
  · cases n with
    | zero => simp [natDigitsAux]
    | succ m => simp [natDigitsAux, hn]
  · obtain ⟨m, rfl⟩ : ∃ m, n = m + 1 := ⟨n - 1, by omega⟩
    simp only [natDigitsAux, hn, if_false, ite_false]
    rw [natDigitsAux_irrel m ((m + 1) / 10) ((m + 1) / 10) (by omega) (by omega)]
    rfl

theorem natDigits_facts :
    ∀ n : Nat, natDigits n ≠ [] ∧ ∀ c ∈ natDigits n, 48 ≤ c.toNat ∧ c.toNat ≤ 57 := by
  intro n
  induction n using Nat.strong_induction_on with
  | _ n ih =>
    rw [natDigits_eq]
    split
    · next h =>
      refine ⟨by simp, ?_⟩
      intro c hc
      simp only [List.mem_singleton] at hc
      subst hc
      rw [toNat_ofNat_digit n h]
      omega
    · next h =>
      have ihn := ih (n / 10) (Nat.div_lt_self (by omega) (by omega))
      refine ⟨by simp, ?_⟩
      intro c hc
      rcases List.mem_append.mp hc with hc | hc
      · exact ihn.2 c hc
      · simp only [List.mem_singleton] at hc
        subst hc
        rw [toNat_ofNat_digit (n % 10) (by omega)]
        omega

theorem natDigits_head_ne_zero :
    ∀ n : Nat, 1 ≤ n → ∀ d ds, natDigits n = d :: ds → d ≠ '0' := by
  intro n
  induction n using Nat.strong_induction_on with
  | _ n ih =>
    intro h1 d ds he hd
    rw [natDigits_eq] at he
    split at he
    · next h =>
      simp only [List.cons.injEq] at he
      have h2 : (Char.ofNat (48 + n)).toNat = 48 + n := toNat_ofNat_digit n h
      rw [he.1, hd] at h2
      have h3 : ('0').toNat = 48 := rfl
      omega
    · next h =>
      obtain ⟨d0, ds0, hd0⟩ : ∃ d0 ds0, natDigits (n / 10) = d0 :: ds0 := by
        rcases hn : natDigits (n / 10) with _ | ⟨d0, ds0⟩
        · exact absurd hn (natDigits_facts (n / 10)).1
        · exact ⟨d0, ds0, rfl⟩
      rw [hd0] at he
      simp only [List.cons_append, List.cons.injEq] at he
      exact ih (n / 10) (Nat.div_lt_self (by omega) (by omega)) (by omega) d0 ds0 hd0
        (he.1 ▸ hd)

theorem parseDigitsAux_stop (rest : List Char) (acc : Nat) (h : headIsDigit rest = false) :
    parseDigitsAux rest acc = (acc, rest) := by
  cases rest with
  | nil => rfl
  | cons r rs =>
    simp only [headIsDigit] at h
    simp [parseDigitsAux, h]

theorem parseDigitsAux_natDigits :
    ∀ n : Nat, ∀ rest acc,
      parseDigitsAux (natDigits n ++ rest) acc
        = parseDigitsAux rest (acc * 10 ^ (natDigits n).length + n) := by
  intro n
  induction n using Nat.strong_induction_on with
  | _ n ih =>
    intro rest acc
    rw [natDigits_eq]
    split
    · next h =>
      have hd := toNat_ofNat_digit n h
      have hdig : isDigitChar (Char.ofNat (48 + n)) = true := by
        simp only [isDigitChar, hd]
        simp
        omega
      simp only [List.cons_append, List.nil_append, List.length_cons,
        List.length_nil, parseDigitsAux, hdig, if_true, ite_true, digitVal, hd]
      norm_num
    · next h =>
      have ihn := ih (n / 10) (Nat.div_lt_self (by omega) (by omega))
      have hd := toNat_ofNat_digit (n % 10) (by omega)
      have hdig : isDigitChar (Char.ofNat (48 + n % 10)) = true := by
        simp only [isDigitChar, hd]
        simp
        omega
      rw [List.append_assoc, List.cons_append, List.nil_append,
        ihn (Char.ofNat (48 + n % 10) :: rest) acc]
      simp only [parseDigitsAux, hdig, if_true, ite_true, digitVal, hd]
      congr 1
      simp only [List.length_append, List.length_cons, List.length_nil]
      calc (acc * 10 ^ (natDigits (n / 10)).length + n / 10) * 10 + (48 + n % 10 - 48)
          = acc * (10 ^ (natDigits (n / 10)).length * 10) + (n / 10 * 10 + n % 10) := by
            have : 48 + n % 10 - 48 = n % 10 := by omega
            rw [this]; ring
        _ = acc * 10 ^ ((natDigits (n / 10)).length + 1) + n := by
            rw [pow_succ]
            congr 1
            omega

theorem parseJsonNat_natDigits (n : Nat) (rest : List Char)
    (h1 : headIsDigit rest = false)
    (h2 : ∀ r rs, rest = r :: rs → ¬(r = '.' ∨ r = 'e' ∨ r = 'E')) :
    parseJsonNat (natDigits n ++ rest) = some (n, rest) := by
  obtain ⟨d, ds, hds⟩ : ∃ d ds, natDigits n = d :: ds := by
    rcases hn : natDigits n with _ | ⟨d, ds⟩
    · exact absurd hn (natDigits_facts n).1
    · exact ⟨d, ds, rfl⟩
  have hdrange := (natDigits_facts n).2 d (by rw [hds]; simp)
  have hd : isDigitChar d = true := by
    simp only [isDigitChar]
    simp
    omega
  have hpd : parseDigitsAux (d :: (ds ++ rest)) 0 = (n, rest) := by
    have e : d :: (ds ++ rest) = (d :: ds) ++ rest := rfl
    rw [e, ← hds, parseDigitsAux_natDigits]
    simp only [Nat.zero_mul, Nat.zero_add]
    exact parseDigitsAux_stop rest n h1
  have hcond : ¬(d = '0' ∧ headIsDigit (ds ++ rest) = true) := by
    by_cases hn : n < 10
    · rw [natDigits_eq] at hds
      simp only [hn, dif_pos] at hds
      have hds' : ds = [] := by
        have := congrArg List.length hds
        simp at this
        cases ds with
        | nil => rfl
        | cons x xs => simp at this
      rintro ⟨-, hdig2⟩
      rw [hds'] at hdig2
      simp only [List.nil_append] at hdig2
      rw [h1] at hdig2
      exact Bool.false_ne_true hdig2
    · rintro ⟨hd0, -⟩
      exact natDigits_head_ne_zero n (by omega) d ds hds hd0
  rw [hds, List.cons_append]
  simp only [parseJsonNat, hd, not_true, Bool.not_eq_true, if_neg, ite_false,
    Bool.true_eq_false, if_neg hcond, hpd]
  cases rest with
  | nil => simp
  | cons r rs =>
    have := h2 r rs rfl
    simp [this]

theorem parseStringBody_plain :
    ∀ key rest : List Char, (∀ c ∈ key, c.toNat ≠ 34 ∧ c.toNat ≠ 92 ∧ 32 ≤ c.toNat) →
      parseStringBody (key ++ '"' :: rest) = some (key, rest)
  | [], rest, _ => by
    rw [List.nil_append, parseStringBody.eq_def]
    simp
  | k :: key, rest, h => by
    have hk := h k (by simp)
    have ih := parseStringBody_plain key rest (fun c hc => h c (by simp [hc]))
    have h1 : ¬(k = '"') := fun e => by rw [e] at hk; exact hk.1 rfl
    have h2 : ¬(k = '\\') := fun e => by rw [e] at hk; exact hk.2.1 rfl
    have h3 : ¬(k.toNat < 32) := by omega
    rw [List.cons_append, parseStringBody.eq_def]
    simp [h1, h2, h3, ih]

theorem skipWs_cons (c : Char) (cs : List Char) (h : isJsonWs c = false) :
    skipWs (c :: cs) = c :: cs := by
  simp [skipWs, h]

theorem isJsonWs_digit (c : Char) (h48 : 48 ≤ c.toNat) (h57 : c.toNat ≤ 57) :
    isJsonWs c = false := by
  simp only [isJsonWs]
  simp
  omega

theorem tokenLoop_expiration (f n : Nat) (h64 : n < 18446744073709551616) :
    tokenLoop (f + 2) false none
      ('"' :: ("expiration".data ++ '"' :: ':' :: (natDigits n ++ [Char.ofNat 125])))
      = some (some n, []) := by
  have hkey : ∀ c ∈ "expiration".data, c.toNat ≠ 34 ∧ c.toNat ≠ 92 ∧ 32 ≤ c.toNat := by decide
  have hpsb := parseStringBody_plain "expiration".data
    (':' :: (natDigits n ++ [Char.ofNat 125])) hkey
  obtain ⟨d, ds, hds⟩ : ∃ d ds, natDigits n = d :: ds := by
    rcases hn : natDigits n with _ | ⟨d, ds⟩
    · exact absurd hn (natDigits_facts n).1
    · exact ⟨d, ds, rfl⟩
  have hdrange := (natDigits_facts n).2 d (by rw [hds]; simp)
  have hskipDigits : skipWs (natDigits n ++ [Char.ofNat 125]) = natDigits n ++ [Char.ofNat 125] := by
    rw [hds, List.cons_append]
    exact skipWs_cons d _ (isJsonWs_digit d hdrange.1 hdrange.2)
  have hnum := parseJsonNat_natDigits n [Char.ofNat 125] (by decide)
    (by intro r rs he; simp only [List.cons.injEq] at he; rw [← he.1]; decide)
  have hafter : tokenLoop (f + 1) true (some n) [Char.ofNat 125] = some (some n, []) := by
    simp only [tokenLoop]
    rw [skipWs_cons (Char.ofNat 125) [] (by decide)]
    simp
  simp only [tokenLoop, hpsb, Option.bind_eq_bind, Option.some_bind]
  rw [skipWs_cons ':' _ (by decide)]
  simp only [reduceIte, if_pos rfl]
  rw [hskipDigits, hnum]
  simp only [Option.some_bind, h64, reduceIte, if_pos h64]
  exact hafter

theorem tokenFromStr_tokenToJson (t : Token) (h64 : t.expiration < 18446744073709551616) :
    tokenFromStr (tokenToJson t) = some t := by
  obtain ⟨n⟩ := t
  have hdata : (tokenToJson ⟨n⟩).data
      = Char.ofNat 123
        :: ('"' :: ("expiration".data ++ '"' :: ':' :: (natDigits n ++ [Char.ofNat 125]))) := by
    show tokenJsonChars n = _
    have e : "\x7b\"expiration\":".data
        = Char.ofNat 123 :: '"' :: ("expiration".data ++ ['"', ':']) := by decide
    simp [tokenJsonChars, e]
  have hmem : tokenLoop
      (('"' :: ("expiration".data ++ '"' :: ':' :: (natDigits n ++ [Char.ofNat 125]))).length + 1)
      false none ('"' :: ("expiration".data ++ '"' :: ':' :: (natDigits n ++ [Char.ofNat 125])))
      = some (some n, []) := by
    have hlen : ('"' :: ("expiration".data ++ '"' :: ':' :: (natDigits n ++ [Char.ofNat 125]))).length + 1
        = ((natDigits n).length + 13) + 2 := by
      simp
    rw [hlen]
    exact tokenLoop_expiration ((natDigits n).length + 13) n h64
  rw [tokenFromStr, hdata]
  rw [skipWs_cons _ _ (by decide)]
  simp only [if_pos rfl, reduceIte]
  rw [skipWs_cons _ _ (by decide)]
  have hne : ¬(('"' : Char) = Char.ofNat 125) := by decide
  simp only [hmem, Option.bind_eq_bind, Option.some_bind, if_neg hne]
  simp [skipWs]

theorem tokenToJson_ascii (t : Token) : ∀ c ∈ (tokenToJson t).data, c.toNat < 128 := by
  obtain ⟨n⟩ := t
  intro c hc
  have hd : (tokenToJson ⟨n⟩).data = "\x7b\"expiration\":".data ++ natDigits n ++ [Char.ofNat 125] := rfl
  rw [hd] at hc
  rcases List.mem_append.mp hc with hc2 | hc2
  · rcases List.mem_append.mp hc2 with hc3 | hc3
    · exact (by decide : ∀ c ∈ "\x7b\"expiration\":".data, c.toNat < 128) c hc3
    · have := (natDigits_facts n).2 c hc3
      omega
  · simp only [List.mem_singleton] at hc2
    rw [hc2]
    decide

/-- C1: for every token payload `p` (a `u64` `expiration` field) and
every secret, verifying the minted token with the same secret at time
`now` returns `Ok` exactly when `p.expiration > now`, and returns
`ExpirationError` when `p.expiration ≤ now` — the boundary
`expiration = now` is rejected.  (Stated for arbitrary secrets, which
subsumes the claim's 32-byte ones.) -/
theorem C1_verify_mint_roundtrip (t : Token) (secret : List Nat) (now : Nat)
    (h64 : t.expiration < 18446744073709551616) :
    Token.verify (Token.generate t secret) secret now
      = if t.expiration > now then .ok () else .error .ExpirationError := by
  have hascii := tokenToJson_ascii t
  have hjb : ∀ b ∈ utf8Encode (tokenToJson t), b < 256 := utf8Encode_bytes_bound _
  have hsb : ∀ b ∈ sign_token (utf8Encode (tokenToJson t)) secret, b < 256 := by
    intro b hb
    exact sha256_bytes_bound _ b hb
  have hwire : (Token.generate t secret).data
      = b64encodeWith b64charStd (utf8Encode (tokenToJson t))
        ++ '.' :: b64encodeWith b64charStd (sign_token (utf8Encode (tokenToJson t)) secret) := rfl
  have hfind := findChar_append_dot _
    (b64encodeWith b64charStd (sign_token (utf8Encode (tokenToJson t)) secret))
    (b64encode_ne_dot _ hjb)
  have htake : ((Token.generate t secret).data).take
      ((b64encodeWith b64charStd (utf8Encode (tokenToJson t))).length)
      = b64encodeWith b64charStd (utf8Encode (tokenToJson t)) := by
    rw [hwire]
    exact List.take_left _ _
  have hdrop : ((Token.generate t secret).data).drop
      ((b64encodeWith b64charStd (utf8Encode (tokenToJson t))).length + 1)
      = b64encodeWith b64charStd (sign_token (utf8Encode (tokenToJson t)) secret) := by
    rw [hwire]
    have e : b64encodeWith b64charStd (utf8Encode (tokenToJson t))
        ++ '.' :: b64encodeWith b64charStd (sign_token (utf8Encode (tokenToJson t)) secret)
        = (b64encodeWith b64charStd (utf8Encode (tokenToJson t)) ++ ['.'])
          ++ b64encodeWith b64charStd (sign_token (utf8Encode (tokenToJson t)) secret) := by
      simp
    have e2 : (b64encodeWith b64charStd (utf8Encode (tokenToJson t))).length + 1
        = (b64encodeWith b64charStd (utf8Encode (tokenToJson t)) ++ ['.']).length := by
      simp
    rw [e, e2]
    exact List.drop_left _ _
  have hdecJ : b64decode (b64encodeWith b64charStd (utf8Encode (tokenToJson t)))
      = some (utf8Encode (tokenToJson t)) := b64decode_encode _ hjb
  have hdecS : b64decode (b64encodeWith b64charStd (sign_token (utf8Encode (tokenToJson t)) secret))
      = some (sign_token (utf8Encode (tokenToJson t)) secret) := b64decode_encode _ hsb
  have hutf := utf8Decode_encode_ascii (tokenToJson t) hascii
  have hjsonrt := tokenFromStr_tokenToJson t h64
  rw [← hwire] at hfind
  simp only [Token.verify]
  simp only [hfind, htake, hdecJ, hdrop, hdecS, hutf, hjsonrt]
  simp

/-- Witness for C1: a concrete payload and secret on both sides of the
expiration boundary. -/
theorem C1_witness :
    Token.verify (Token.generate ⟨5⟩ demoSecret) demoSecret 3 = .ok ()
    ∧ Token.verify (Token.generate ⟨5⟩ demoSecret) demoSecret 5
        = .error .ExpirationError := by
  constructor
  · have h := C1_verify_mint_roundtrip ⟨5⟩ demoSecret 3 (by norm_num)
    simpa using h
  · have h := C1_verify_mint_roundtrip ⟨5⟩ demoSecret 5 (by norm_num)
    simpa using h

/-- C3 (amended): `mint` returns the concatenation
`B64_NOPAD(payload_json) "." B64_NOPAD(signature)` with
`signature = SHA-256(payload_json || 0x2E || secret)`, where both wire
segments use the *standard* base64 alphabet without padding (the source
configures `CharacterSet::Standard`), not the url-safe one; the fixture
conjunct pins the repository's own token test vector. -/
theorem C3_wire_format :
    (∀ (t : Token) (secret : List Nat), Token.generate t secret = wireTokenStd t secret)
    ∧ Token.generate ⟨10203040⟩ fixtureSecret
        = "eyJleHBpcmF0aW9uIjoxMDIwMzA0MH0.Z8NCgEZkfzFGgAGZa0PbzcKZiZ3tu1jZzVz1ARZd0Eg" := by
  constructor
  · intro t secret
    rfl
  · decide

/-- Counterexample for C3 as stated: with the all-zero 32-byte secret and
payload `{"expiration":0}`, the minted token differs from the
`B64URL_NOPAD` reading of the wire format (the signature segment contains
a `+` or `/`). -/
theorem C3_counterexample :
    Token.generate ⟨0⟩ demoSecret ≠ wireTokenUrl ⟨0⟩ demoSecret := by decide

/-- C4: `verify` checks the signature before parsing the payload.  For
every wire string: no `.` or a base64 failure of either half is a
`FormatError` (conjuncts 1-3, before any signature comparison); when both
halves decode, a signature mismatch is a `SignatureError` regardless of
the payload bytes (conjunct 4); only with a matching signature does a
non-UTF-8 payload (conjunct 5) or a non-JSON / missing-`expiration`
payload (conjunct 6) yield `FormatError`. -/
theorem C4_verify_error_order :
    (∀ (value : String) (secret : List Nat) (now : Nat),
       findChar value.data '.' = none →
       Token.verify value secret now = .error .FormatError)
  ∧ (∀ (value : String) (secret : List Nat) (now pos : Nat),
       findChar value.data '.' = some pos →
       b64decode (value.data.take pos) = none →
       Token.verify value secret now = .error .FormatError)
  ∧ (∀ (value : String) (secret : List Nat) (now pos : Nat) (tok : List Nat),
       findChar value.data '.' = some pos →
       b64decode (value.data.take pos) = some tok →
       b64decode (value.data.drop (pos + 1)) = none →
       Token.verify value secret now = .error .FormatError)
  ∧ (∀ (value : String) (secret : List Nat) (now pos : Nat) (tok sig : List Nat),
       findChar value.data '.' = some pos →
       b64decode (value.data.take pos) = some tok →
       b64decode (value.data.drop (pos + 1)) = some sig →
       sig ≠ sign_token tok secret →
       Token.verify value secret now = .error .SignatureError)
  ∧ (∀ (value : String) (secret : List Nat) (now pos : Nat) (tok sig : List Nat),
       findChar value.data '.' = some pos →
       b64decode (value.data.take pos) = some tok →
       b64decode (value.data.drop (pos + 1)) = some sig →
       sig = sign_token tok secret →
       utf8Decode tok = none →
       Token.verify value secret now = .error .FormatError)
  ∧ (∀ (value : String) (secret : List Nat) (now pos : Nat) (tok sig : List Nat) (json : String),
       findChar value.data '.' = some pos →
       b64decode (value.data.take pos) = some tok →
       b64decode (value.data.drop (pos + 1)) = some sig →
       sig = sign_token tok secret →
       utf8Decode tok = some json →
       tokenFromStr json = none →
       Token.verify value secret now = .error .FormatError) := by
  refine ⟨?_, ?_, ?_, ?_, ?_, ?_⟩
  · intro value secret now hfind
    simp [Token.verify, hfind]
  · intro value secret now pos hfind hdec
    simp [Token.verify, hfind, hdec]
  · intro value secret now pos tok hfind hdec hdec2
    simp [Token.verify, hfind, hdec, hdec2]
  · intro value secret now pos tok sig hfind hdec hdec2 hne
    simp [Token.verify, hfind, hdec, hdec2, hne]
  · intro value secret now pos tok sig hfind hdec hdec2 heq hutf
    simp [Token.verify, hfind, hdec, hdec2, heq, hutf]
  · intro value secret now pos tok sig json hfind hdec hdec2 heq hutf hjson
    simp [Token.verify, hfind, hdec, hdec2, heq, hutf, hjson]

/-- Witness for C4: one concrete wire string per error path (all signed
paths use the all-zero 32-byte secret). -/
theorem C4_witness :
    Token.verify "abc" demoSecret 5 = .error .FormatError
  ∧ Token.verify "!!.AA" demoSecret 5 = .error .FormatError
  ∧ Token.verify "AA.!" demoSecret 5 = .error .FormatError
  ∧ Token.verify "AA.AA" demoSecret 5 = .error .SignatureError
  ∧ Token.verify c4wireNonUtf8 demoSecret 5 = .error .FormatError
  ∧ Token.verify c4wireNonJson demoSecret 5 = .error .FormatError := by
  obtain ⟨h1, h2, h3, h4, h5, h6⟩ := C4_verify_error_order
  refine ⟨h1 "abc" demoSecret 5 (by decide),
          h2 "!!.AA" demoSecret 5 2 (by decide) (by decide),
          h3 "AA.!" demoSecret 5 2 [0] (by decide) (by decide) (by decide),
          h4 "AA.AA" demoSecret 5 2 [0] [0] (by decide) (by decide) (by decide) (by decide),
          h5 c4wireNonUtf8 demoSecret 5 2 [255] (sign_token [255] demoSecret)
            (by decide) (by decide) (by decide) rfl (by decide),
          h6 c4wireNonJson demoSecret 5 11 ("not-json".data.map Char.toNat)
            (sign_token ("not-json".data.map Char.toNat) demoSecret) "not-json"
            (by decide) (by decide) (by decide) rfl (by decide) (by decide)⟩

/-- C6: every unauthenticated request whose path is neither `/` nor
`/proxy:styles.css` is answered 303 with `Location: /`, and the upstream
is never contacted (the dispatcher's second component — the request sent
upstream — is `none`), whatever answer the upstream would have given. -/
theorem C6_unauth_redirect (req : Request) (config : ProxyConfig) (now : Nat)
    (upstream : Option Response)
    (hauth : is_authenitcated req config now = false)
    (h1 : req.uri.path ≠ "/") (h2 : req.uri.path ≠ "/proxy:styles.css") :
    handle req config now upstream
      = ({ status := 303, headers := [("Location", "/")], body := .empty }, none) := by
  simp [handle, hauth, h1, h2]

/-- Witness for C6: a cookie-less GET of `/hello`, with an upstream
answer available that is ignored. -/
theorem C6_witness :
    handle (noCookieReq "GET" "/hello") demoConfig 0 (some demoUpstream)
      = ({ status := 303, headers := [("Location", "/")], body := .empty }, none) :=
  C6_unauth_redirect (noCookieReq "GET" "/hello") demoConfig 0 (some demoUpstream)
    (by decide) (by decide) (by decide)

/-- C9: every authenticated request to `/logout` or `/logout/` (any
method) is answered 303 with `Location: /` and a `Set-Cookie` header
exactly equal to the clearing cookie string; the upstream is not
contacted. -/
theorem C9_logout (req : Request) (config : ProxyConfig) (now : Nat)
    (upstream : Option Response)
    (hauth : is_authenitcated req config now = true)
    (hpath : req.uri.path = "/logout" ∨ req.uri.path = "/logout/") :
    handle req config now upstream
      = ({ status := 303,
           headers := [("Location", "/"),
             ("Set-Cookie", "proxy_auth=; HttpOnly; Path=/; Expires=Thu, 01 Jan 1970 00:00:00 GMT")],
           body := .empty }, none) := by
  simp only [handle, hauth, if_true, ite_true, if_pos hpath]
  refine Prod.ext ?_ rfl
  have hc : cookieToString "proxy_auth" "" 0
      = "proxy_auth=; HttpOnly; Path=/; Expires=Thu, 01 Jan 1970 00:00:00 GMT" := by decide
  simp [hc]

/-- Witness for C9: a POST of `/logout/` carrying a valid session
cookie. -/
theorem C9_witness :
    handle { method := "POST", uri := { path := "/logout/", query := none },
             headers := [("Cookie", "proxy_auth=" ++ demoToken)], body := [] }
        demoConfig 0 none
      = ({ status := 303,
           headers := [("Location", "/"),
             ("Set-Cookie", "proxy_auth=; HttpOnly; Path=/; Expires=Thu, 01 Jan 1970 00:00:00 GMT")],
           body := .empty }, none) :=
  C9_logout _ demoConfig 0 none (by decide) (by decide)

/-- C10: an unauthenticated request to `/` whose method is neither GET
nor POST is handled like a GET: the login page is returned with status
200 and `wrong_credentials = false`, not a 303 redirect. -/
theorem C10_login_page_other_methods (req : Request) (config : ProxyConfig) (now : Nat)
    (upstream : Option Response)
    (hauth : is_authenitcated req config now = false)
    (hpath : req.uri.path = "/")
    (hget : req.method ≠ "GET") (hpost : req.method ≠ "POST") :
    handle req config now upstream
      = ({ status := 200, headers := [("Content-Type", "text/html")],
           body := .loginPage false }, none) := by
  simp [handle, hauth, hpath, run_login_page, hpost, loginPageResponse]

/-- Witness for C10: a cookie-less DELETE of `/`. -/
theorem C10_witness :
    handle (noCookieReq "DELETE" "/") demoConfig 77 none
      = ({ status := 200, headers := [("Content-Type", "text/html")],
           body := .loginPage false }, none) :=
  C10_login_page_other_methods (noCookieReq "DELETE" "/") demoConfig 77 none
    (by decide) (by decide) (by decide) (by decide)

/-- C2 (amended): for an unauthenticated POST to `/`, a body whose form
fields contain a `username` but no `password` re-renders the login page
with `wrong_credentials = true` and status 200; a body with *neither*
field re-renders it with `wrong_credentials = false` (the source's
`(None, None) => false` arm), not `true` as claimed. -/
theorem C2_missing_password (req : Request) (config : ProxyConfig) (now : Nat)
    (upstream : Option Response)
    (hauth : is_authenitcated req config now = false)
    (hpath : req.uri.path = "/") (hmethod : req.method = "POST") :
    (∀ u, extract_form_fields req.body = (some u, none) →
       handle req config now upstream
         = ({ status := 200, headers := [("Content-Type", "text/html")],
              body := .loginPage true }, none))
    ∧ (extract_form_fields req.body = (none, none) →
       handle req config now upstream
         = ({ status := 200, headers := [("Content-Type", "text/html")],
              body := .loginPage false }, none)) := by
  constructor
  · intro u hics
    simp [handle, hauth, hpath, run_login_page, hmethod, hics, loginPageResponse]
  · intro hics
    simp [handle, hauth, hpath, run_login_page, hmethod, hics, loginPageResponse]

/-- Counterexample for C2 as stated: an unauthenticated POST to `/` with
an empty body (no `username`, no `password`) yields the login page with
`wrong_credentials = false`, not `true`. -/
theorem C2_counterexample :
    (handle c2req demoConfig 0 none).1.body = Body.loginPage false
    ∧ (handle c2req demoConfig 0 none).1.body ≠ Body.loginPage true := by
  constructor <;> decide

/-- Witness for C2: the POST body `username=a` (username present, no
password) and the empty POST body. -/
theorem C2_witness :
    handle c2reqUser demoConfig 0 none
      = ({ status := 200, headers := [("Content-Type", "text/html")],
           body := .loginPage true }, none)
    ∧ handle c2req demoConfig 0 none
      = ({ status := 200, headers := [("Content-Type", "text/html")],
           body := .loginPage false }, none) :=
  ⟨(C2_missing_password c2reqUser demoConfig 0 none (by decide) (by decide) (by decide)).1
      "a" (by decide),
   (C2_missing_password c2req demoConfig 0 none (by decide) (by decide) (by decide)).2
      (by decide)⟩

/-- C5 (amended): for every authenticated request to a path other than
`/logout` and `/logout/`, the dispatcher adds no `Set-Cookie` of its own:
the response is exactly the upstream's response (or a synthetic
header-less 502 on transport failure), so it carries `Set-Cookie` only
when the upstream's response did. -/
theorem C5_no_set_cookie_added (req : Request) (config : ProxyConfig) (now : Nat)
    (upstream : Option Response)
    (hauth : is_authenitcated req config now = true)
    (h1 : req.uri.path ≠ "/logout") (h2 : req.uri.path ≠ "/logout/") :
    (handle req config now upstream).1
      = (match upstream with
         | some r => r
         | none => { status := 502, headers := [], body := .empty })
    ∧ ((match upstream with
        | some r => headerGet r.headers "Set-Cookie"
        | none => none) = none →
       headerGet (handle req config now upstream).1.headers "Set-Cookie" = none) := by
  have hmain : (handle req config now upstream).1
      = (match upstream with
         | some r => r
         | none => { status := 502, headers := [], body := .empty }) := by
    simp [handle, hauth, h1, h2, run_proxy]
  refine ⟨hmain, ?_⟩
  intro hup
  rw [hmain]
  cases upstream with
  | none => rfl
  | some r => exact hup

/-- Witness for C5: an authenticated GET of `/hello` whose upstream
answer carries no `Set-Cookie`. -/
theorem C5_witness :
    (handle (authReq "/hello") demoConfig 0
        (some { status := 200, headers := [("X-Up", "v")], body := .empty })).1
      = { status := 200, headers := [("X-Up", "v")], body := .empty }
    ∧ headerGet (handle (authReq "/hello") demoConfig 0
        (some { status := 200, headers := [("X-Up", "v")], body := .empty })).1.headers
        "Set-Cookie" = none := by
  have h := C5_no_set_cookie_added (authReq "/hello") demoConfig 0
    (some { status := 200, headers := [("X-Up", "v")], body := .empty })
    (by decide) (by decide) (by decide)
  exact ⟨h.1, h.2 (by decide)⟩

/-- Counterexample for C5 as stated: the upstream's response is
propagated verbatim, so when the upstream itself sets a cookie, the
authenticated non-logout response carries `Set-Cookie`. -/
theorem C5_counterexample :
    headerGet (handle (authReq "/hello") demoConfig 0 (some demoUpstream)).1.headers "Set-Cookie"
      = some "a=b" := by decide

/-- C7 (amended): `run_proxy`'s outbound request carries
`X-Auth-Username: <username>` exactly when its `username` argument is
non-empty (conjunct 1, from src/proxy.rs); but the dispatcher of
src/service.rs invokes `run_proxy` with no username — the session token
records none — so the request it forwards for an authenticated session
carries no headers at all, in particular no `X-Auth-Username`
(conjunct 2). -/
theorem C7_username_header :
    (∀ (req : Request) (remote : RemoteUri) (username : String) (upstream : Option Response),
       headerGet (run_proxy req remote username upstream).1.headers "X-Auth-Username"
         = if username = "" then none else some username)
  ∧ (∀ (req : Request) (config : ProxyConfig) (now : Nat) (upstream : Option Response)
       (out : OutRequest),
       is_authenitcated req config now = true →
       req.uri.path ≠ "/logout" → req.uri.path ≠ "/logout/" →
       (handle req config now upstream).2 = some out →
       out.headers = []) := by
  constructor
  · intro req remote username upstream
    by_cases h : username = ""
    · simp [run_proxy, headerGet, h]
    · simp [run_proxy, headerGet, h]
  · intro req config now upstream out hauth h1 h2 hout
    simp only [handle, hauth, if_true, ite_true, if_neg, run_proxy] at hout
    simp only [h1, h2, or_self, if_false, ite_false, ne_eq, not_true_eq_false,
      reduceIte, Option.some.injEq] at hout
    rw [← hout]

/-- Witness for C7: the header is present for a non-empty username and
absent for the empty one; and a concrete authenticated dispatch forwards
an empty header list. -/
theorem C7_witness :
    headerGet (run_proxy (noCookieReq "GET" "/hello")
        { scheme := some "http", authority := "h", path := "/" } "user" none).1.headers
        "X-Auth-Username" = some "user"
    ∧ headerGet (run_proxy (noCookieReq "GET" "/hello")
        { scheme := some "http", authority := "h", path := "/" } "" none).1.headers
        "X-Auth-Username" = none
    ∧ (handle (authReq "/hello") demoConfig 0 (some demoUpstream)).2.map OutRequest.headers
        = some [] := by
  obtain ⟨ha, hb⟩ := C7_username_header
  refine ⟨?_, ?_, ?_⟩
  · have h := ha (noCookieReq "GET" "/hello")
      { scheme := some "http", authority := "h", path := "/" } "user" none
    simpa using h
  · have h := ha (noCookieReq "GET" "/hello")
      { scheme := some "http", authority := "h", path := "/" } "" none
    simpa using h
  · have h := hb (authReq "/hello") demoConfig 0 (some demoUpstream)
      { uri := { scheme := "http", authority := "localhost:7000", path_and_query := "/hello" },
        method := "GET", headers := [], body := [] }
      (by decide) (by decide) (by decide) (by decide)
    decide

/-- Counterexample for C7 as stated: `demoConfig` is a multi-user
configuration (a username is required to log in), the request is
authenticated as user `user`, yet the forwarded upstream request carries
no `X-Auth-Username` header — the claim requires it to carry the
(non-empty) authenticated username. -/
theorem C7_counterexample :
    demoConfig.requires_username = true
    ∧ (handle (authReq "/hello") demoConfig 0 (some demoUpstream)).2
        = some { uri := { scheme := "http", authority := "localhost:7000",
                          path_and_query := "/hello" },
                 method := "GET", headers := [], body := [] } := by
  constructor <;> decide


theorem takeUntilQuery_no :
    ∀ xs : List Char, '?' ∉ xs → takeUntilQuery xs = xs
  | [], _ => rfl
  | x :: xs, h => by
    have hx : ¬(x = '?') := fun e => h (by simp [e])
    have ih := takeUntilQuery_no xs (fun m => h (by simp [m]))
    simp [takeUntilQuery, hx, ih]

theorem takeUntilQuery_upto :
    ∀ xs ys : List Char, '?' ∉ xs →
      takeUntilQuery (xs ++ '?' :: ys) = xs
  | [], ys, _ => by simp [takeUntilQuery]
  | x :: xs, ys, h => by
    have hx : ¬(x = '?') := fun e => h (by simp [e])
    have ih := takeUntilQuery_upto xs ys (fun m => h (by simp [m]))
    simp [takeUntilQuery, hx, ih]

theorem str_eq_of_data (s t : String) (h : s.data = t.data) : s = t :=
  congrArg String.mk h

theorem str_append_mk (s t : String) : s ++ t = String.mk (s.data ++ t.data) :=
  congrArg String.mk (String.data_append s t)

theorem strDropFirst_ends (p : String) (hne : p ≠ "/")
    (hends : p.data.getLast? = some '/') :
    (strDropFirst p).data ≠ [] ∧ (strDropFirst p).data.getLast? = some '/' := by
  rcases p with ⟨cs⟩
  cases cs with
  | nil => simp at hends
  | cons a t =>
    cases t with
    | nil =>
      simp at hends
      subst hends
      exact absurd rfl hne
    | cons b t2 =>
      constructor
      · simp [strDropFirst]
      · simpa [strDropFirst] using (List.getLast?_cons_cons).symm.trans hends

/-- C8 (amended): (1) for every local URI and every upstream base whose
path is `/`, the rewritten URI's path-and-query equals the local
path-and-query; (2) for every upstream base, the rewriter preserves a
trailing slash of a local path *other than the bare `/`* (when the local
path is exactly `/`, the upstream base path is used as-is, so its
trailing slash — or lack of one — prevails). -/
theorem C8_transfer_parts :
    (∀ (L : Uri) (U : RemoteUri), U.path = "/" → L.path.data.head? = some '/' →
       (transfer_parts L U).path_and_query = L.pathAndQuery)
  ∧ (∀ (L : Uri) (U : RemoteUri), L.path ≠ "/" → strEndsWith L.path '/' = true →
       '?' ∉ U.path.data → '?' ∉ L.path.data →
       strEndsWith (pathOf (transfer_parts L U).path_and_query) '/' = true) := by
  constructor
  · intro L U hU hhead
    by_cases hp : L.path = "/"
    · simp only [transfer_parts, hU, hp, Uri.pathAndQuery]
      cases L.query with
      | none => simp [hp]
      | some q =>
        simp [hp]
        apply str_eq_of_data
        have e1 : ("/?" : String).data = ['/', '?'] := by decide
        have e2 : ("/" : String).data = ['/'] := by decide
        have e3 : ("?" : String).data = ['?'] := by decide
        simp [String.data_append, e1, e2, e3]
    · have hjoin : ("/" : String) ++ strDropFirst L.path = L.path := by
        rcases hLp : L.path with ⟨cs⟩
        cases cs with
        | nil => rw [hLp] at hhead; simp at hhead
        | cons c t =>
          rw [hLp] at hhead
          simp at hhead
          subst hhead
          rfl
      have hslash : strEndsWith ("/" : String) '/' = true := by decide
      simp only [transfer_parts, hU, hp, hslash, Uri.pathAndQuery, if_true, ite_true,
        if_neg, ne_eq, not_false_eq_true, hjoin]
      cases L.query with
      | none => simp [hp, hjoin]
      | some q =>
        simp [hp, hjoin]
        apply str_eq_of_data
        have e3 : ("?" : String).data = ['?'] := by decide
        simp [String.data_append, e3]
  · intro L U hne hends hqU hqL
    simp only [strEndsWith, decide_eq_true_eq] at hends
    have core : ∀ Xdata : List Char, Xdata.getLast? = some '/' → '?' ∉ Xdata →
        ∀ qopt : Option String,
        strEndsWith (pathOf (String.mk (U.path.data ++ Xdata ++ (match qopt with
          | some q => '?' :: q.data
          | none => [])))) '/' = true := by
      intro X hXl hXq qopt
      have hPl : (U.path.data ++ X).getLast? = some '/' := by
        rw [List.getLast?_append, hXl]
        rfl
      have hPq : '?' ∉ U.path.data ++ X := by
        intro hm
        rcases List.mem_append.mp hm with h | h
        · exact hqU h
        · exact hXq h
      cases qopt with
      | none =>
        simp only [List.append_nil, pathOf, strEndsWith, decide_eq_true_eq]
        rw [takeUntilQuery_no _ hPq]
        simp [hPl]
      | some q =>
        simp only [pathOf, strEndsWith, decide_eq_true_eq]
        rw [takeUntilQuery_upto _ _ hPq]
        simp [hPl]
    by_cases hU : strEndsWith U.path '/'
    · obtain ⟨hXne, hXlast⟩ := strDropFirst_ends L.path hne hends
      have hXq : '?' ∉ (strDropFirst L.path).data := by
        intro hm
        exact hqL (List.mem_of_mem_drop hm)
      have hpaq : (transfer_parts L U).path_and_query
          = String.mk (U.path.data ++ (strDropFirst L.path).data ++ (match L.query with
              | some q => '?' :: q.data
              | none => [])) := by
        simp only [transfer_parts, hne, hU, if_true, ite_true, if_neg, ne_eq,
          not_false_eq_true]
        cases L.query with
        | none =>
          simp only [List.append_nil]
          exact str_append_mk _ _
        | some q =>
          have hd : ((U.path ++ strDropFirst L.path) ++ "?" ++ q).data
              = U.path.data ++ (strDropFirst L.path).data ++ ('?' :: q.data) := by
            simp [String.data_append]
          exact congrArg String.mk hd
      rw [hpaq]
      exact core _ hXlast hXq L.query
    · have hLne : '?' ∉ L.path.data := hqL
      have hpaq : (transfer_parts L U).path_and_query
          = String.mk (U.path.data ++ L.path.data ++ (match L.query with
              | some q => '?' :: q.data
              | none => [])) := by
        simp only [transfer_parts, hne, hU, if_false, ite_false, if_neg, ne_eq,
          not_false_eq_true, Bool.false_eq_true]
        cases L.query with
        | none =>
          simp only [List.append_nil]
          exact str_append_mk _ _
        | some q =>
          have hd : ((U.path ++ L.path) ++ "?" ++ q).data
              = U.path.data ++ L.path.data ++ ('?' :: q.data) := by
            simp [String.data_append]
          exact congrArg String.mk hd
      rw [hpaq]
      exact core _ hends hLne L.query

/-- Witness for C8: the repository's own rewrite fixtures
`rewrite("/abc?a=1", base "/") = "/abc?a=1"` and
`rewrite("/abc/", base "/x") = "/x/abc/"`. -/
theorem C8_witness :
    (transfer_parts { path := "/abc", query := some "a=1" }
        { scheme := some "http", authority := "h", path := "/" }).path_and_query
      = "/abc?a=1"
    ∧ strEndsWith (pathOf (transfer_parts { path := "/abc/", query := none }
        { scheme := some "http", authority := "h", path := "/x" }).path_and_query) '/'
      = true := by
  constructor
  · have h := C8_transfer_parts.1 { path := "/abc", query := some "a=1" }
      { scheme := some "http", authority := "h", path := "/" } rfl (by decide)
    rw [h]
    decide
  · exact C8_transfer_parts.2 { path := "/abc/", query := none }
      { scheme := some "http", authority := "h", path := "/x" }
      (by decide) (by decide) (by decide) (by decide)

/-- Counterexample for C8 as stated: with local path `/` (which ends in a
slash) and upstream base path `/x`, the rewritten path is `/x`, which does
not end in a slash — the trailing slash of the local path is not
preserved for every upstream base. -/
theorem C8_counterexample :
    strEndsWith ("/" : String) '/' = true
    ∧ strEndsWith (pathOf (transfer_parts { path := "/", query := none }
        { scheme := some "http", authority := "h", path := "/x" }).path_and_query) '/'
      = false := by
  constructor <;> decide
